import Mathlib

/-!
Shallow embedding of the recipe-app-api backend (Django REST Framework
application): user registration / profile management, recipe CRUD with
nested tag and ingredient descriptors, and the query/filter layer.

The embedding follows the source files under `app/recipe/views.py`,
`app/recipe/serializers.py`, `app/user/serializers.py` and
`app/user/views.py`.  Framework primitives that those files invoke
(Django ORM querysets, `get_or_create`, DRF serializer field handling)
are embedded with their documented semantics; the database is an
explicit in-memory state.
-/

/-- Error kinds that can abort request processing.  `validationError`
corresponds to DRF's `ValidationError` (an `APIException` which the
framework's exception handler converts into a 400 client-error
response); `valueError` corresponds to Python's builtin `ValueError`,
which is not an `APIException` and therefore propagates out of the view
as an unhandled exception (a 500 server error). -/
inductive PyError where
  | validationError
  | valueError
deriving DecidableEq

instance {e a : Type} [DecidableEq e] [DecidableEq a] : DecidableEq (Except e a)
  | .ok x, .ok y =>
      if h : x = y then isTrue (by rw [h]) else isFalse (fun hh => h (Except.ok.inj hh))
  | .error x, .error y =>
      if h : x = y then isTrue (by rw [h]) else isFalse (fun hh => h (Except.error.inj hh))
  | .ok _, .error _ => isFalse Except.noConfusion
  | .error _, .ok _ => isFalse Except.noConfusion

/-- A user row: id, email, stored password hash, display name. -/
structure User where
  id : Nat
  email : String
  passwordHash : String
  name : String
deriving DecidableEq

/-- A tag or ingredient row (the two tables have the identical shape:
id, owning user, free-text name). -/
structure Label where
  id : Nat
  userId : Nat
  name : String
deriving DecidableEq

/-- A recipe row together with its many-to-many association rows:
`tagIds` / `ingredientIds` are the sets of associated label ids (the
m2m through-tables, which hold no duplicate pairs). -/
structure Recipe where
  id : Nat
  userId : Nat
  title : String
  timeMinutes : Nat
  price : Rat
  link : String
  description : String
  image : Option String
  tagIds : List Nat
  ingredientIds : List Nat
deriving DecidableEq

/-- The database state: one list per table, plus auto-increment
counters for the two label tables. -/
structure DB where
  users : List User
  tags : List Label
  ingredients : List Label
  recipes : List Recipe
  nextTagId : Nat
  nextIngredientId : Nat
deriving DecidableEq

/-! ## Python `int()` and `RecipeViewSet._params_to_ints` -/

/-- Parse a list of decimal digit characters; `none` when the list is
empty or contains a non-digit (mirroring Python `int()` rejecting the
string). -/
def parseDigits : List Char → Option Nat
  | [] => none
  | [c] => if c.isDigit then some (c.toNat - 48) else none
  | c :: rest =>
      if c.isDigit then
        match parseDigits rest with
        | some n => some ((c.toNat - 48) * 10 ^ rest.length + n)
        | none => none
      else none

/-- The whitespace characters `int()` strips (Python's
`str.strip()` default set). -/
def isPySpace (c : Char) : Bool :=
  c.toNat = 32 || c.toNat = 9 || c.toNat = 10 || c.toNat = 13 || c.toNat = 11 || c.toNat = 12

/-- Strip leading and trailing whitespace from a character list. -/
def trimChars (l : List Char) : List Char :=
  ((l.dropWhile isPySpace).reverse.dropWhile isPySpace).reverse

/-- `str.split(sep)` for a single-character separator: splitting the
empty string gives `[""]`, and every separator occurrence opens a new
(possibly empty) piece. -/
def splitOnChar (sep : Char) : List Char → List (List Char)
  | [] => [[]]
  | c :: rest =>
      if c = sep then [] :: splitOnChar sep rest
      else
        match splitOnChar sep rest with
        | [] => [[c]]
        | p :: ps => (c :: p) :: ps

/-- Python's builtin `int(str)` on the string's characters: strips
surrounding whitespace, accepts an optional sign followed by a
non-empty digit string, and raises `ValueError` on anything else. -/
def pyIntChars (cs0 : List Char) : Except PyError Int :=
  match trimChars cs0 with
  | '-' :: rest =>
      match parseDigits rest with
      | some n => .ok (-(n : Int))
      | none => .error .valueError
  | '+' :: rest =>
      match parseDigits rest with
      | some n => .ok (n : Int)
      | none => .error .valueError
  | cs =>
      match parseDigits cs with
      | some n => .ok (n : Int)
      | none => .error .valueError

/-- Python's builtin `int(str)`. -/
def pyInt (s : String) : Except PyError Int :=
  pyIntChars s.data

/-- The list-comprehension loop of `_params_to_ints`: run `int()` over
each piece in order; the first piece `int()` rejects raises and aborts
the whole comprehension. -/
def intListLoop : List (List Char) → Except PyError (List Int)
  | [] => .ok []
  | s :: rest => do
      let n ← pyIntChars s
      let ns ← intListLoop rest
      pure (n :: ns)

/-- `RecipeViewSet._params_to_ints`: split the query-string value on
commas (`qs.split(',')`) and run each piece through `int()`. -/
def params_to_ints (qs : String) : Except PyError (List Int) :=
  intListLoop (splitOnChar ',' qs.data)

/-! ## Ordering and SQL `DISTINCT` on querysets -/

/-- `order_by('-id')` comparison on recipes: descending id. -/
def recipeGe (a b : Recipe) : Prop := b.id ≤ a.id

instance : DecidableRel recipeGe := fun a b => Nat.decLe b.id a.id

instance : IsTotal Recipe recipeGe :=
  ⟨fun a b => (Nat.le_total b.id a.id).elim Or.inl Or.inr⟩

instance : IsTrans Recipe recipeGe :=
  ⟨fun _ _ _ hab hbc => Nat.le_trans hbc hab⟩

/-- `order_by('-name')` comparison on labels: descending name. -/
def labelGe (a b : Label) : Prop := b.name ≤ a.name

instance : DecidableRel labelGe := fun a b => inferInstanceAs (Decidable (b.name ≤ a.name))

instance : IsTotal Label labelGe :=
  ⟨fun a b => (le_total b.name a.name).elim Or.inl Or.inr⟩

instance : IsTrans Label labelGe :=
  ⟨fun _ _ _ hab hbc => le_trans hbc hab⟩

/-- `.order_by(...).distinct()` on a queryset: SQL `SELECT DISTINCT ...
ORDER BY ...` deduplicates the row multiset and sorts it. -/
def distinctOrdered {α : Type} [DecidableEq α] (r : α → α → Prop) [DecidableRel r]
    (l : List α) : List α :=
  List.insertionSort r l.dedup

/-! ## `RecipeViewSet.get_queryset` and detail-object lookup -/

/-- Number of m2m join rows a recipe contributes under
`filter(tags__id__in=ids)` (resp. `ingredients__id__in`): one row per
associated label id that lies in the filter id list. -/
def joinHits (assoc : List Nat) (ids : List Int) : Nat :=
  (assoc.filter (fun (t : Nat) => ids.contains (t : Int))).length

/-- A Django m2m `filter(<rel>__id__in=ids)` at SQL level: the join
produces one output row per (recipe, matching label) pair, so a recipe
with several matching labels appears several times (this is why the
view ends with `.distinct()`). -/
def joinFilter (q : List Recipe) (proj : Recipe → List Nat) (ids : List Int) : List Recipe :=
  q.flatMap (fun r => List.replicate (joinHits (proj r) ids) r)

/-- `RecipeViewSet.get_queryset`, with the two query parameters already
parsed: `none` models an absent (or empty, hence falsy) parameter
string, `some ids` a present one.  Mirrors the source: start from all
recipes, apply the `tags`/`ingredients` joins when the parameter is
truthy, then filter to the requesting user, `order_by('-id')` and
`distinct()`. -/
def recipeGetQueryset (db : DB) (uid : Nat) (tagsP ingredientsP : Option (List Int)) :
    List Recipe :=
  let q0 := db.recipes
  let q1 := match tagsP with
    | none => q0
    | some ids => joinFilter q0 Recipe.tagIds ids
  let q2 := match ingredientsP with
    | none => q1
    | some ids => joinFilter q1 Recipe.ingredientIds ids
  distinctOrdered recipeGe (q2.filter (fun r => r.userId == uid))

/-- The full list request including parameter parsing: the view checks
the raw strings for truthiness (`if tags:`), so `none` or the empty
string skip the filter, and any other string goes through
`_params_to_ints`, whose `ValueError` propagates. -/
def recipeListRequest (db : DB) (uid : Nat) (tagsQ ingredientsQ : Option String) :
    Except PyError (List Recipe) := do
  let tagsP ← match tagsQ with
    | none => pure (none : Option (List Int))
    | some s => if s = "" then pure none else do pure (some (← params_to_ints s))
  let ingredientsP ← match ingredientsQ with
    | none => pure (none : Option (List Int))
    | some s => if s = "" then pure none else do pure (some (← params_to_ints s))
  pure (recipeGetQueryset db uid tagsP ingredientsP)

/-- DRF `get_object` for recipe detail endpoints (retrieve / update /
delete / upload-image): look the pk up inside `get_queryset()`;
`get_object_or_404` yields a 404 (here `none`) when no row of the
user-scoped queryset has that pk. -/
def recipeGetObject (db : DB) (uid : Nat) (pk : Nat) : Option Recipe :=
  (recipeGetQueryset db uid none none).find? (fun r => r.id == pk)

/-! ## `BaseRecipeAttrViewSet.get_queryset` (tags and ingredients) -/

/-- `filter(recipe__isnull=False)` at SQL level: the reverse m2m join
emits one row per (label, associated recipe) pair. -/
def assignedJoin (rows : List Label) (recipes : List Recipe) (proj : Recipe → List Nat) :
    List Label :=
  rows.flatMap (fun l =>
    List.replicate ((recipes.filter (fun r => (proj r).contains l.id)).length) l)

/-- `BaseRecipeAttrViewSet.get_queryset` with the `assigned_only` flag
already coerced to a boolean: optionally keep only labels attached to
at least one recipe, then filter to the requesting user,
`order_by('-name')` and `distinct()`. -/
def attrGetQueryset (rows : List Label) (recipes : List Recipe) (proj : Recipe → List Nat)
    (uid : Nat) (assignedOnly : Bool) : List Label :=
  let q1 := if assignedOnly then assignedJoin rows recipes proj else rows
  distinctOrdered labelGe (q1.filter (fun l => l.userId == uid))

/-- `TagViewSet` queryset. -/
def tagGetQueryset (db : DB) (uid : Nat) (assignedOnly : Bool) : List Label :=
  attrGetQueryset db.tags db.recipes Recipe.tagIds uid assignedOnly

/-- `IngredientViewSet` queryset. -/
def ingredientGetQueryset (db : DB) (uid : Nat) (assignedOnly : Bool) : List Label :=
  attrGetQueryset db.ingredients db.recipes Recipe.ingredientIds uid assignedOnly

/-- The `assigned_only` request parameter as the view reads it:
`int(self.request.query_params.get('assigned_only', 0))` followed by
`bool(...)`.  An absent parameter defaults to the integer `0`; a
present one is a string fed to `int()`, whose `ValueError` on a
non-integer string propagates unhandled. -/
def assignedOnlyOfParam (p : Option String) : Except PyError Bool :=
  match p with
  | none => .ok false
  | some s => do pure ((← pyInt s) ≠ 0)

/-- Full tag list request: coerce `assigned_only`, then evaluate the
queryset. -/
def tagListRequest (db : DB) (uid : Nat) (p : Option String) : Except PyError (List Label) := do
  pure (tagGetQueryset db uid (← assignedOnlyOfParam p))

/-- Full ingredient list request. -/
def ingredientListRequest (db : DB) (uid : Nat) (p : Option String) :
    Except PyError (List Label) := do
  pure (ingredientGetQueryset db uid (← assignedOnlyOfParam p))

/-- DRF `get_object` for tag detail endpoints (update / delete): pk
lookup inside the user-scoped queryset, 404 (`none`) when absent.  The
detail request carries no `assigned_only` parameter, so the flag
defaults to false. -/
def tagGetObject (db : DB) (uid : Nat) (pk : Nat) : Option Label :=
  (tagGetQueryset db uid false).find? (fun l => l.id == pk)

/-- DRF `get_object` for ingredient detail endpoints. -/
def ingredientGetObject (db : DB) (uid : Nat) (pk : Nat) : Option Label :=
  (ingredientGetQueryset db uid false).find? (fun l => l.id == pk)

/-! ## `Tag.objects.get_or_create` / `Ingredient.objects.get_or_create` -/

/-- One label table (tag or ingredient) with its auto-increment
counter. -/
structure LabelTable where
  rows : List Label
  nextId : Nat
deriving DecidableEq

/-- Row predicate for the `get_or_create(user=auth_user, name=...)`
lookup kwargs. -/
def labelMatches (uid : Nat) (name : String) (l : Label) : Bool :=
  l.userId == uid && l.name == name

/-- Django `Model.objects.get_or_create(user=..., name=...)`: look up a
row with the given field values; return it when found, otherwise insert
a fresh row with those values and the next auto-increment id. -/
def getOrCreateLabel (t : LabelTable) (uid : Nat) (name : String) : Label × LabelTable :=
  match t.rows.find? (labelMatches uid name) with
  | some l => (l, t)
  | none =>
      let l : Label := ⟨t.nextId, uid, name⟩
      (l, ⟨t.rows ++ [l], t.nextId + 1⟩)

/-- m2m `recipe.tags.add(obj)` on the association id list: adding an
already-associated label is a no-op, otherwise the pair is inserted. -/
def m2mAdd (assoc : List Nat) (i : Nat) : List Nat :=
  if i ∈ assoc then assoc else assoc ++ [i]

/-- The loop body shared by `RecipeSerializer._get_or_create_tags` and
`RecipeSerializer._get_or_create_ingredients`: for each nested
descriptor name, `get_or_create` the label for the authenticated user
and `add` it to the recipe's association set.  Returns the final
association list and the updated label table. -/
def getOrCreateLoop (t : LabelTable) (uid : Nat) (names : List String) (assoc : List Nat) :
    List Nat × LabelTable :=
  match names with
  | [] => (assoc, t)
  | n :: rest =>
      let l := (getOrCreateLabel t uid n).1
      let t1 := (getOrCreateLabel t uid n).2
      getOrCreateLoop t1 uid rest (m2mAdd assoc l.id)

/-! ## `RecipeSerializer.update` -/

/-- The `validated_data` of a recipe update.  Scalar fields are
optional because a PATCH may omit them; `tags` / `ingredients` are
optional because `validated_data.pop('tags', None)` distinguishes an
absent key (`none`) from a supplied list of nested name descriptors
(`some names`). -/
structure RecipeUpdateData where
  title : Option String
  timeMinutes : Option Nat
  price : Option Rat
  link : Option String
  description : Option String
  tags : Option (List String)
  ingredients : Option (List String)
deriving DecidableEq

/-- The `for attr, value in validated_data.items(): setattr(...)` loop
over the scalar fields that remain after `tags` and `ingredients` were
popped. -/
def applyScalars (r : Recipe) (vd : RecipeUpdateData) : Recipe :=
  { r with
    title := vd.title.getD r.title
    timeMinutes := vd.timeMinutes.getD r.timeMinutes
    price := vd.price.getD r.price
    link := vd.link.getD r.link
    description := vd.description.getD r.description }

/-- `RecipeSerializer.update(instance, validated_data)`: pop `tags` and
`ingredients`; when a popped value is not `None`, `clear()` the
corresponding association set and re-resolve the supplied names through
the get-or-create loop; finally assign the remaining scalar attributes
and save.  Returns the updated recipe together with the (possibly
extended) tag and ingredient tables. -/
def recipeSerializerUpdate (uid : Nat) (tagTable ingredientTable : LabelTable)
    (inst : Recipe) (vd : RecipeUpdateData) :
    Recipe × LabelTable × LabelTable :=
  let tagRes := match vd.tags with
    | none => (inst.tagIds, tagTable)
    | some names => getOrCreateLoop tagTable uid names []
  let ingredientRes := match vd.ingredients with
    | none => (inst.ingredientIds, ingredientTable)
    | some names => getOrCreateLoop ingredientTable uid names []
  let r1 := { inst with tagIds := tagRes.1, ingredientIds := ingredientRes.1 }
  (applyScalars r1 vd, tagRes.2, ingredientRes.2)

/-! ## `UserSerializer` -/

/-- Modelled from the spec: the framework's password hasher invoked by
`create_user` / `set_password` (the custom user model lives in
`core/models.py`, which only declares the manager; the hashing itself
is a framework primitive).  The stored credential is an irreversible
hash of the raw password, never the raw password itself; the model
tags the value so that stored-vs-raw can be distinguished. -/
def makePassword (raw : String) : String :=
  "pbkdf2_sha256$" ++ raw

/-- Modelled from the spec: framework email-format validation backing
the serializer's `EmailField` ("fails ... if email malformed").  A
well-formed address is `local@domain` with a non-empty local part and a
dotted non-empty domain. -/
def isValidEmail (s : String) : Bool :=
  match splitOnChar '@' s.data with
  | [localPart, domain] => !localPart.isEmpty && !domain.isEmpty && domain.contains '.'
  | _ => false

/-- ASCII lower-casing of a character list (the case-insensitive view
of an email address). -/
def lowerChars (l : List Char) : List Char :=
  l.map (fun c => if c.toNat ≥ 65 && c.toNat ≤ 90 then Char.ofNat (c.toNat + 32) else c)

/-- Modelled from the spec: the unique-email check backing registration
("fails ... if email ... duplicate"; User has "unique email
(case-insensitive)"). -/
def emailTaken (db : DB) (email : String) : Bool :=
  db.users.any (fun u => lowerChars u.email.data == lowerChars email.data)

/-- `UserSerializer` field validation for registration: the serializer
declares `fields = ['email', 'password', 'name']` with
`extra_kwargs = {'password': {'write_only': True, 'min_length': 5}}`,
so validation fails exactly when the email is malformed or duplicate or
the password is shorter than 5 characters. -/
def userCreateValid (db : DB) (email password : String) : Bool :=
  isValidEmail email && !(emailTaken db email) && decide (password.length ≥ 5)

/-- Modelled from the spec: `get_user_model().objects.create_user`
(defined in `core/models.py`, not under the embedded sources): persist
a new user whose stored credential is the password hash. -/
def create_user (db : DB) (email password name : String) : DB × User :=
  let u : User := ⟨db.users.length + 1, email, makePassword password, name⟩
  ({ db with users := db.users ++ [u] }, u)

/-- `CreateUserView` handling a registration request: run serializer
validation; on success call `UserSerializer.create`, which delegates to
`create_user`; on failure raise `ValidationError` and leave the
database untouched. -/
def registerUser (db : DB) (email password name : String) :
    Except PyError User × DB :=
  if userCreateValid db email password then
    (.ok (create_user db email password name).2, (create_user db email password name).1)
  else
    (.error .validationError, db)

/-- The serializer's declared field list. -/
def userSerializerFields : List String := ["email", "password", "name"]

/-- Fields marked `write_only` in `extra_kwargs`: accepted as input but
never serialized out. -/
def userWriteOnlyFields : List String := ["password"]

/-- What serializing field `f` of a user would emit (the stored value
of the column backing the field). -/
def userFieldValue (u : User) : String → String
  | "email" => u.email
  | "name" => u.name
  | "password" => u.passwordHash
  | _ => ""

/-- DRF `to_representation` for `UserSerializer`: emit every declared
field that is not write-only, as a key/value list.  Every user-facing
response body (registration 201, profile GET, profile PATCH) is
produced by this function. -/
def userToRepresentation (u : User) : List (String × String) :=
  (userSerializerFields.filter (fun f => !(userWriteOnlyFields.contains f))).map
    (fun f => (f, userFieldValue u f))

/-- `validated_data` of a profile update (`PATCH /users/me/`): all
fields optional. -/
structure UserUpdateData where
  email : Option String
  name : Option String
  password : Option String
deriving DecidableEq

/-- `UserSerializer.update(instance, validated_data)`: pop the password
(defaulting to `None`), let the base `ModelSerializer.update` assign
the remaining fields, then — only when the popped password is truthy,
i.e. present and non-empty — `set_password` (re-hash) and save. -/
def userSerializerUpdate (u : User) (vd : UserUpdateData) : User :=
  let password := vd.password
  let u1 := { u with email := vd.email.getD u.email, name := vd.name.getD u.name }
  match password with
  | some p => if p ≠ "" then { u1 with passwordHash := makePassword p } else u1
  | none => u1

/-! ## `RecipeViewSet.upload_image` -/

/-- The body of a `POST /recipes/{id}/upload-image/` request. -/
inductive UploadData where
  | missing
  | malformed
  | image (ref : String)
deriving DecidableEq

/-- Modelled from the spec: `RecipeImageSerializer.is_valid()` (the
serializer class is referenced by the view but its definition is not
among the embedded sources).  Per the spec it "validates image payload
(fails with ValidationError on invalid/missing image)". -/
def imageSerializerValid : UploadData → Bool
  | .image _ => true
  | _ => false

/-- `RecipeViewSet.upload_image`: `get_object()` resolves the pk inside
the user-scoped queryset (404 when absent); a valid image payload is
saved — replacing any prior image reference — and answered with 200 and
the serialized recipe; an invalid payload is answered with 400 and the
errors, leaving the database unchanged.  Returns the HTTP status and
the resulting database. -/
def uploadImage (db : DB) (uid : Nat) (pk : Nat) (body : UploadData) : Nat × DB :=
  match recipeGetObject db uid pk with
  | none => (404, db)
  | some _ =>
      match body with
      | .image ref =>
          let newRecipes :=
            db.recipes.map (fun r => if r.id == pk then { r with image := some ref } else r)
          (200, { db with recipes := newRecipes })
      | _ => (400, db)

/-- Well-formedness of a database state: primary keys are unique per
table (the ORM's auto-increment guarantees this). -/
def dbWF (db : DB) : Prop :=
  (db.recipes.map Recipe.id).Nodup ∧
  (db.tags.map Label.id).Nodup ∧
  (db.ingredients.map Label.id).Nodup

instance (db : DB) : Decidable (dbWF db) := by
  unfold dbWF; infer_instance

/-! ## Queryset lemmas -/

lemma mem_distinctOrdered {α : Type} [DecidableEq α] (r : α → α → Prop) [DecidableRel r]
    (l : List α) (a : α) : a ∈ distinctOrdered r l ↔ a ∈ l := by
  simp [distinctOrdered, List.mem_insertionSort, List.mem_dedup]

lemma nodup_distinctOrdered {α : Type} [DecidableEq α] (r : α → α → Prop) [DecidableRel r]
    (l : List α) : (distinctOrdered r l).Nodup :=
  (List.perm_insertionSort r l.dedup).nodup_iff.mpr (List.nodup_dedup l)

lemma sorted_distinctOrdered {α : Type} [DecidableEq α] (r : α → α → Prop) [DecidableRel r]
    [IsTotal α r] [IsTrans α r] (l : List α) : List.Sorted r (distinctOrdered r l) :=
  List.sorted_insertionSort r l.dedup

lemma joinHits_ne_zero {assoc : List Nat} {ids : List Int} :
    joinHits assoc ids ≠ 0 ↔ ∃ t ∈ assoc, (t : Int) ∈ ids := by
  unfold joinHits
  rw [Ne, List.length_eq_zero, List.eq_nil_iff_forall_not_mem]
  push_neg
  constructor
  · rintro ⟨x, hx⟩
    rw [List.mem_filter] at hx
    exact ⟨x, hx.1, List.elem_iff.mp hx.2⟩
  · rintro ⟨t, ht, hc⟩
    exact ⟨t, List.mem_filter.mpr ⟨ht, List.elem_iff.mpr hc⟩⟩

lemma mem_joinFilter {q : List Recipe} {proj : Recipe → List Nat} {ids : List Int}
    {r : Recipe} :
    r ∈ joinFilter q proj ids ↔ r ∈ q ∧ ∃ t ∈ proj r, (t : Int) ∈ ids := by
  unfold joinFilter
  rw [List.mem_flatMap]
  constructor
  · rintro ⟨a, ha, hr⟩
    rw [List.mem_replicate] at hr
    rcases hr with ⟨hn, rfl⟩
    exact ⟨ha, joinHits_ne_zero.mp hn⟩
  · rintro ⟨hq, hm⟩
    exact ⟨r, hq, List.mem_replicate.mpr ⟨joinHits_ne_zero.mpr hm, rfl⟩⟩

/-- Whether a recipe's association list meets an (optional) id filter:
an absent filter always matches; a present one requires at least one
associated id in the filter list. -/
def optMatch (p : Option (List Int)) (assoc : List Nat) : Prop :=
  match p with
  | none => True
  | some ids => ∃ t ∈ assoc, (t : Int) ∈ ids

instance (p : Option (List Int)) (assoc : List Nat) : Decidable (optMatch p assoc) := by
  unfold optMatch
  cases p <;> infer_instance

lemma mem_recipeGetQueryset {db : DB} {uid : Nat} {tp ip : Option (List Int)} {r : Recipe} :
    r ∈ recipeGetQueryset db uid tp ip ↔
      r ∈ db.recipes ∧ r.userId = uid ∧ optMatch tp r.tagIds ∧ optMatch ip r.ingredientIds := by
  unfold recipeGetQueryset
  rw [mem_distinctOrdered, List.mem_filter]
  cases tp <;> cases ip <;>
    simp [mem_joinFilter, optMatch, and_assoc, and_comm, and_left_comm]

lemma nodup_recipeGetQueryset (db : DB) (uid : Nat) (tp ip : Option (List Int)) :
    (recipeGetQueryset db uid tp ip).Nodup :=
  nodup_distinctOrdered recipeGe _

lemma sorted_recipeGetQueryset (db : DB) (uid : Nat) (tp ip : Option (List Int)) :
    List.Sorted recipeGe (recipeGetQueryset db uid tp ip) :=
  sorted_distinctOrdered recipeGe _

/-- Whether a label is attached to at least one recipe (through the
given m2m projection). -/
def attachedTo (recipes : List Recipe) (proj : Recipe → List Nat) (l : Label) : Prop :=
  ∃ r ∈ recipes, l.id ∈ proj r

instance (recipes : List Recipe) (proj : Recipe → List Nat) (l : Label) :
    Decidable (attachedTo recipes proj l) := by
  unfold attachedTo
  infer_instance

lemma mem_assignedJoin {rows : List Label} {recipes : List Recipe}
    {proj : Recipe → List Nat} {l : Label} :
    l ∈ assignedJoin rows recipes proj ↔ l ∈ rows ∧ attachedTo recipes proj l := by
  unfold assignedJoin attachedTo
  rw [List.mem_flatMap]
  constructor
  · rintro ⟨a, ha, hl⟩
    rw [List.mem_replicate] at hl
    rcases hl with ⟨hn, rfl⟩
    rw [Ne, List.length_eq_zero, List.filter_eq_nil_iff] at hn
    push_neg at hn
    rcases hn with ⟨r, hr, hc⟩
    simp only [List.elem_iff] at hc
    exact ⟨ha, r, hr, hc⟩
  · rintro ⟨hq, r, hr, hc⟩
    refine ⟨l, hq, List.mem_replicate.mpr ⟨?_, rfl⟩⟩
    rw [Ne, List.length_eq_zero, List.filter_eq_nil_iff]
    push_neg
    exact ⟨r, hr, by simpa using hc⟩

lemma mem_attrGetQueryset {rows : List Label} {recipes : List Recipe}
    {proj : Recipe → List Nat} {uid : Nat} {b : Bool} {l : Label} :
    l ∈ attrGetQueryset rows recipes proj uid b ↔
      l ∈ rows ∧ l.userId = uid ∧ (b = true → attachedTo recipes proj l) := by
  cases b
  · unfold attrGetQueryset
    rw [mem_distinctOrdered, List.mem_filter]
    simp
  · unfold attrGetQueryset
    rw [mem_distinctOrdered, List.mem_filter, if_pos rfl, mem_assignedJoin]
    simp only [beq_iff_eq, true_implies]
    tauto

lemma nodup_attrGetQueryset (rows : List Label) (recipes : List Recipe)
    (proj : Recipe → List Nat) (uid : Nat) (b : Bool) :
    (attrGetQueryset rows recipes proj uid b).Nodup :=
  nodup_distinctOrdered labelGe _

/-! ## `get_or_create` lemmas -/

/-- Number of rows of the table matching the `(user, name)` lookup. -/
def matchCount (t : LabelTable) (uid : Nat) (name : String) : Nat :=
  (t.rows.filter (labelMatches uid name)).length

lemma labelMatches_iff {uid : Nat} {name : String} {l : Label} :
    labelMatches uid name l = true ↔ l.userId = uid ∧ l.name = name := by
  unfold labelMatches
  simp

lemma getOrCreateLabel_matches (t : LabelTable) (uid : Nat) (name : String) :
    ((getOrCreateLabel t uid name).1).userId = uid ∧
      ((getOrCreateLabel t uid name).1).name = name := by
  unfold getOrCreateLabel
  cases h : t.rows.find? (labelMatches uid name) with
  | none => exact ⟨rfl, rfl⟩
  | some l => exact labelMatches_iff.mp (List.find?_some h)

lemma getOrCreateLabel_mem (t : LabelTable) (uid : Nat) (name : String) :
    (getOrCreateLabel t uid name).1 ∈ ((getOrCreateLabel t uid name).2).rows := by
  unfold getOrCreateLabel
  cases h : t.rows.find? (labelMatches uid name) with
  | none => simp
  | some l => exact List.mem_of_find?_eq_some h

lemma getOrCreateLabel_rows_mono (t : LabelTable) (uid : Nat) (name : String) {x : Label}
    (hx : x ∈ t.rows) : x ∈ ((getOrCreateLabel t uid name).2).rows := by
  unfold getOrCreateLabel
  cases h : t.rows.find? (labelMatches uid name) with
  | none => simp [hx]
  | some l => exact hx

lemma getOrCreateLabel_of_exists (t : LabelTable) (uid : Nat) (name : String)
    (h : ∃ x ∈ t.rows, labelMatches uid name x = true) :
    (getOrCreateLabel t uid name).2 = t := by
  unfold getOrCreateLabel
  cases hf : t.rows.find? (labelMatches uid name) with
  | none =>
      rcases h with ⟨x, hx, hpx⟩
      exact absurd hpx (List.find?_eq_none.mp hf x hx)
  | some l => rfl

lemma getOrCreateLabel_of_not_exists (t : LabelTable) (uid : Nat) (name : String)
    (h : ∀ x ∈ t.rows, labelMatches uid name x = false) :
    ((getOrCreateLabel t uid name).2).rows = t.rows ++ [⟨t.nextId, uid, name⟩] := by
  unfold getOrCreateLabel
  cases hf : t.rows.find? (labelMatches uid name) with
  | none => rfl
  | some l =>
      have := List.find?_some hf
      rw [h l (List.mem_of_find?_eq_some hf)] at this
      exact absurd this (by simp)

lemma matchCount_pos_iff {t : LabelTable} {uid : Nat} {name : String} :
    matchCount t uid name ≠ 0 ↔ ∃ x ∈ t.rows, labelMatches uid name x = true := by
  unfold matchCount
  rw [Ne, List.length_eq_zero, List.eq_nil_iff_forall_not_mem]
  push_neg
  constructor
  · rintro ⟨x, hx⟩
    rw [List.mem_filter] at hx
    exact ⟨x, hx.1, hx.2⟩
  · rintro ⟨x, hx, hp⟩
    exact ⟨x, List.mem_filter.mpr ⟨hx, hp⟩⟩

/-! ## `getOrCreateLoop` lemmas -/

lemma m2mAdd_mem {assoc : List Nat} {i j : Nat} :
    i ∈ m2mAdd assoc j ↔ i ∈ assoc ∨ i = j := by
  unfold m2mAdd
  by_cases h : j ∈ assoc
  · rw [if_pos h]
    constructor
    · exact Or.inl
    · rintro (hi | rfl)
      · exact hi
      · exact h
  · rw [if_neg h]
    simp

lemma getOrCreateLoop_rows_mono (uid : Nat) (names : List String) :
    ∀ (t : LabelTable) (assoc : List Nat) {x : Label}, x ∈ t.rows →
      x ∈ ((getOrCreateLoop t uid names assoc).2).rows := by
  induction names with
  | nil => intro t assoc x hx; exact hx
  | cons n rest ih =>
      intro t assoc x hx
      unfold getOrCreateLoop
      exact ih _ _ (getOrCreateLabel_rows_mono t uid n hx)

lemma getOrCreateLoop_assoc_mono (uid : Nat) (names : List String) :
    ∀ (t : LabelTable) (assoc : List Nat) {i : Nat}, i ∈ assoc →
      i ∈ (getOrCreateLoop t uid names assoc).1 := by
  induction names with
  | nil => intro t assoc i hi; exact hi
  | cons n rest ih =>
      intro t assoc i hi
      unfold getOrCreateLoop
      exact ih _ _ (m2mAdd_mem.mpr (Or.inl hi))

/-- Every id in the association list produced by the loop either was
already associated or names a row of the final label table owned by the
authenticated user and bearing one of the supplied names. -/
lemma getOrCreateLoop_sound (uid : Nat) (names : List String) :
    ∀ (t : LabelTable) (assoc : List Nat) {i : Nat},
      i ∈ (getOrCreateLoop t uid names assoc).1 →
      i ∈ assoc ∨ ∃ l ∈ ((getOrCreateLoop t uid names assoc).2).rows,
        l.id = i ∧ l.userId = uid ∧ l.name ∈ names := by
  induction names with
  | nil => intro t assoc i hi; exact Or.inl hi
  | cons n rest ih =>
      intro t assoc i hi
      unfold getOrCreateLoop at hi ⊢
      rcases ih _ _ hi with ha | ⟨l, hl, hid, huid, hname⟩
      · rcases m2mAdd_mem.mp ha with hold | hnew
        · exact Or.inl hold
        · subst hnew
          refine Or.inr ⟨(getOrCreateLabel t uid n).1, ?_, rfl, ?_, ?_⟩
          · exact getOrCreateLoop_rows_mono uid rest _ _ (getOrCreateLabel_mem t uid n)
          · exact (getOrCreateLabel_matches t uid n).1
          · rw [(getOrCreateLabel_matches t uid n).2]
            exact List.mem_cons_self n rest
      · exact Or.inr ⟨l, hl, hid, huid, List.mem_cons_of_mem n hname⟩

/-- Every supplied name ends up represented: some row of the final
table carries that name for the authenticated user and its id is
associated. -/
lemma getOrCreateLoop_complete (uid : Nat) (names : List String) :
    ∀ (t : LabelTable) (assoc : List Nat) {n : String}, n ∈ names →
      ∃ l ∈ ((getOrCreateLoop t uid names assoc).2).rows,
        l.userId = uid ∧ l.name = n ∧ l.id ∈ (getOrCreateLoop t uid names assoc).1 := by
  induction names with
  | nil => intro t assoc n hn; exact absurd hn (List.not_mem_nil n)
  | cons m rest ih =>
      intro t assoc n hn
      unfold getOrCreateLoop
      rcases List.mem_cons.mp hn with rfl | hrest
      · refine ⟨(getOrCreateLabel t uid n).1, ?_, ?_, ?_, ?_⟩
        · exact getOrCreateLoop_rows_mono uid rest _ _ (getOrCreateLabel_mem t uid n)
        · exact (getOrCreateLabel_matches t uid n).1
        · exact (getOrCreateLabel_matches t uid n).2
        · exact getOrCreateLoop_assoc_mono uid rest _ _
            (m2mAdd_mem.mpr (Or.inr rfl))
      · exact ih _ _ hrest

/-! ## Concrete fixtures used by witnesses and counterexamples -/

/-- A tag owned by user 1. -/
def tagA : Label := ⟨1, 1, "Vegan"⟩

/-- A recipe owned by user 1 carrying tag 1. -/
def recipeA : Recipe := ⟨1, 1, "Stew", 45, 5, "", "", none, [1], []⟩

/-- An ingredient owned by user 1, attached to no recipe. -/
def ingredientA : Label := ⟨1, 1, "Salt"⟩

/-- A one-user database: one tag, one ingredient, one recipe. -/
def dbA : DB := ⟨[], [tagA], [ingredientA], [recipeA], 2, 2⟩

/-- The empty database. -/
def dbEmpty : DB := ⟨[], [], [], [], 1, 1⟩

/-! ## Cross-user lookup lemmas -/

lemma recipeGetObject_cross_user {db : DB} {uid : Nat} {r : Recipe}
    (hwf : (db.recipes.map Recipe.id).Nodup) (hr : r ∈ db.recipes) (hne : r.userId ≠ uid) :
    recipeGetObject db uid r.id = none := by
  unfold recipeGetObject
  rw [List.find?_eq_none]
  intro x hx hpx
  rw [beq_iff_eq] at hpx
  rcases mem_recipeGetQueryset.mp hx with ⟨hxdb, hxu, -, -⟩
  have : x = r := List.inj_on_of_nodup_map hwf hxdb hr hpx
  subst this
  exact hne hxu

lemma attr_cross_user_find {rows : List Label} {recipes : List Recipe}
    {proj : Recipe → List Nat} {uid : Nat} {l : Label}
    (hwf : (rows.map Label.id).Nodup) (hl : l ∈ rows) (hne : l.userId ≠ uid) :
    (attrGetQueryset rows recipes proj uid false).find? (fun x => x.id == l.id) = none := by
  rw [List.find?_eq_none]
  intro x hx hpx
  rw [beq_iff_eq] at hpx
  rcases mem_attrGetQueryset.mp hx with ⟨hxdb, hxu, -⟩
  have : x = l := List.inj_on_of_nodup_map hwf hxdb hl hpx
  subst this
  exact hne hxu

/-- C1: every operation sees or mutates only records owned by the
requester.  List results (for recipes under any tag/ingredient filter,
and for tags and ingredients under any `assigned_only` flag) contain
only the requester's rows, and the detail-object lookup used by
retrieve, update and delete answers `none` — surfaced by the framework
as a 404 — for every record owned by a different user. -/
theorem claim1_owner_scoping (db : DB) (uid : Nat) (tp ip : Option (List Int)) (b : Bool)
    (hwf : dbWF db) :
    (∀ r ∈ recipeGetQueryset db uid tp ip, r.userId = uid) ∧
    (∀ l ∈ tagGetQueryset db uid b, l.userId = uid) ∧
    (∀ l ∈ ingredientGetQueryset db uid b, l.userId = uid) ∧
    (∀ r ∈ db.recipes, r.userId ≠ uid → recipeGetObject db uid r.id = none) ∧
    (∀ l ∈ db.tags, l.userId ≠ uid → tagGetObject db uid l.id = none) ∧
    (∀ l ∈ db.ingredients, l.userId ≠ uid → ingredientGetObject db uid l.id = none) := by
  refine ⟨?_, ?_, ?_, ?_, ?_, ?_⟩
  · intro r hr
    exact (mem_recipeGetQueryset.mp hr).2.1
  · intro l hl
    exact (mem_attrGetQueryset.mp hl).2.1
  · intro l hl
    exact (mem_attrGetQueryset.mp hl).2.1
  · intro r hr hne
    exact recipeGetObject_cross_user hwf.1 hr hne
  · intro l hl hne
    exact attr_cross_user_find hwf.2.1 hl hne
  · intro l hl hne
    exact attr_cross_user_find hwf.2.2 hl hne

/-- Witness for C1 at a concrete state: user 2 can neither see nor
reach user 1's recipe, tag, or ingredient. -/
theorem claim1_owner_scoping_witness :
    recipeGetObject dbA 2 1 = none ∧ tagGetObject dbA 2 1 = none ∧
      ingredientGetObject dbA 2 1 = none := by
  have h := claim1_owner_scoping dbA 2 none none false (by decide)
  refine ⟨?_, ?_, ?_⟩
  · exact h.2.2.2.1 recipeA (by decide) (by decide)
  · exact h.2.2.2.2.1 tagA (by decide) (by decide)
  · exact h.2.2.2.2.2 ingredientA (by decide) (by decide)

/-- C4: recipe listing returns exactly the requester's recipes that
meet every supplied id filter (none supplied: all owned recipes; a
supplied id list keeps recipes with at least one associated id in it),
without duplicates even when a recipe matches several filter values,
ordered by id descending. -/
theorem claim4_recipe_list_filtering (db : DB) (uid : Nat) (tp ip : Option (List Int)) :
    (recipeGetQueryset db uid tp ip).Nodup ∧
    List.Sorted recipeGe (recipeGetQueryset db uid tp ip) ∧
    (∀ r : Recipe, r ∈ recipeGetQueryset db uid tp ip ↔
      r ∈ db.recipes ∧ r.userId = uid ∧ optMatch tp r.tagIds ∧ optMatch ip r.ingredientIds) :=
  ⟨nodup_recipeGetQueryset db uid tp ip, sorted_recipeGetQueryset db uid tp ip,
    fun _ => mem_recipeGetQueryset⟩

/-- Witness for C4 at a concrete state: filtering by tag ids `[1, 2]`
keeps the recipe that carries tag 1 exactly once. -/
theorem claim4_recipe_list_filtering_witness :
    recipeA ∈ recipeGetQueryset dbA 1 (some [1, 2]) none ∧
      List.count recipeA (recipeGetQueryset dbA 1 (some [1, 2]) none) = 1 := by
  have h := claim4_recipe_list_filtering dbA 1 (some [1, 2]) none
  have hm : recipeA ∈ recipeGetQueryset dbA 1 (some [1, 2]) none :=
    (h.2.2 recipeA).mpr (by refine ⟨by decide, rfl, ⟨1, by decide, by decide⟩, trivial⟩)
  exact ⟨hm, List.count_eq_one_of_mem h.1 hm⟩

/-- Clearing first: a loop started on an empty association only yields
ids resolved from the supplied names. -/
lemma getOrCreateLoop_nil_sound (uid : Nat) (names : List String) (t : LabelTable) {i : Nat}
    (hi : i ∈ (getOrCreateLoop t uid names []).1) :
    ∃ l ∈ ((getOrCreateLoop t uid names []).2).rows,
      l.id = i ∧ l.userId = uid ∧ l.name ∈ names := by
  rcases getOrCreateLoop_sound uid names t [] hi with h | h
  · exact absurd h (List.not_mem_nil i)
  · exact h

/-- C2: recipe update has tri-state association semantics.  A payload
with `tags` (resp. `ingredients`) absent leaves the association set
unchanged; supplied as the empty list it clears the set; supplied
non-trivially it clears the set and repopulates it exactly from the
labels resolved for the supplied names by get-or-create (every id
afterwards names a resolved label for a supplied name, and every
supplied name is resolved to an associated label of the requester). -/
theorem claim2_update_tristate (uid : Nat) (tt it : LabelTable) (inst : Recipe)
    (vd : RecipeUpdateData) :
    ((recipeSerializerUpdate uid tt it inst { vd with tags := none }).1.tagIds
        = inst.tagIds) ∧
    ((recipeSerializerUpdate uid tt it inst { vd with ingredients := none }).1.ingredientIds
        = inst.ingredientIds) ∧
    ((recipeSerializerUpdate uid tt it inst { vd with tags := some [] }).1.tagIds = []) ∧
    ((recipeSerializerUpdate uid tt it inst { vd with ingredients := some [] }).1.ingredientIds
        = []) ∧
    (∀ names,
      (∀ i ∈ (recipeSerializerUpdate uid tt it inst { vd with tags := some names }).1.tagIds,
        ∃ l ∈ ((recipeSerializerUpdate uid tt it inst
            { vd with tags := some names }).2.1).rows,
          l.id = i ∧ l.userId = uid ∧ l.name ∈ names) ∧
      (∀ n ∈ names,
        ∃ l ∈ ((recipeSerializerUpdate uid tt it inst
            { vd with tags := some names }).2.1).rows,
          l.userId = uid ∧ l.name = n ∧
            l.id ∈ (recipeSerializerUpdate uid tt it inst
              { vd with tags := some names }).1.tagIds)) ∧
    (∀ names,
      (∀ i ∈ (recipeSerializerUpdate uid tt it inst
            { vd with ingredients := some names }).1.ingredientIds,
        ∃ l ∈ ((recipeSerializerUpdate uid tt it inst
            { vd with ingredients := some names }).2.2).rows,
          l.id = i ∧ l.userId = uid ∧ l.name ∈ names) ∧
      (∀ n ∈ names,
        ∃ l ∈ ((recipeSerializerUpdate uid tt it inst
            { vd with ingredients := some names }).2.2).rows,
          l.userId = uid ∧ l.name = n ∧
            l.id ∈ (recipeSerializerUpdate uid tt it inst
              { vd with ingredients := some names }).1.ingredientIds)) := by
  refine ⟨?_, ?_, ?_, ?_, ?_, ?_⟩
  · simp [recipeSerializerUpdate, applyScalars]
  · simp [recipeSerializerUpdate, applyScalars]
  · simp [recipeSerializerUpdate, applyScalars, getOrCreateLoop]
  · simp [recipeSerializerUpdate, applyScalars, getOrCreateLoop]
  · intro names
    constructor
    · intro i hi
      simp only [recipeSerializerUpdate, applyScalars] at hi ⊢
      exact getOrCreateLoop_nil_sound uid names tt hi
    · intro n hn
      simp only [recipeSerializerUpdate, applyScalars]
      exact getOrCreateLoop_complete uid names tt [] hn
  · intro names
    constructor
    · intro i hi
      simp only [recipeSerializerUpdate, applyScalars] at hi ⊢
      exact getOrCreateLoop_nil_sound uid names it hi
    · intro n hn
      simp only [recipeSerializerUpdate, applyScalars]
      exact getOrCreateLoop_complete uid names it [] hn

/-- Witness for C2 at a concrete state: an update omitting `tags`
keeps the association, `tags: []` clears it, and `tags:
[{name: "Vegan"}]` re-resolves it. -/
theorem claim2_update_tristate_witness :
    (recipeSerializerUpdate 1 ⟨[tagA], 2⟩ ⟨[], 1⟩ recipeA
        ⟨none, none, none, none, none, none, none⟩).1.tagIds = recipeA.tagIds ∧
    (recipeSerializerUpdate 1 ⟨[tagA], 2⟩ ⟨[], 1⟩ recipeA
        ⟨none, none, none, none, none, some [], none⟩).1.tagIds = [] ∧
    ∃ l ∈ ((recipeSerializerUpdate 1 ⟨[tagA], 2⟩ ⟨[], 1⟩ recipeA
        ⟨none, none, none, none, none, some ["Vegan"], none⟩).2.1).rows,
      l.userId = 1 ∧ l.name = "Vegan" ∧
        l.id ∈ (recipeSerializerUpdate 1 ⟨[tagA], 2⟩ ⟨[], 1⟩ recipeA
          ⟨none, none, none, none, none, some ["Vegan"], none⟩).1.tagIds := by
  have h := claim2_update_tristate 1 ⟨[tagA], 2⟩ ⟨[], 1⟩ recipeA
    ⟨none, none, none, none, none, none, none⟩
  exact ⟨h.1, h.2.2.1, (h.2.2.2.2.1 ["Vegan"]).2 "Vegan" (List.mem_singleton.mpr rfl)⟩

/-- C3: `get_or_create` is idempotent.  The returned label always
carries the requested owner and name; when a matching row exists it is
returned and the table is untouched; when none exists exactly one new
row is appended; and starting from a state with no matching row, two
successive calls with the same (owner, name) leave exactly one
matching row. -/
theorem claim3_get_or_create_idempotent (t : LabelTable) (uid : Nat) (name : String) :
    (((getOrCreateLabel t uid name).1).userId = uid ∧
      ((getOrCreateLabel t uid name).1).name = name) ∧
    ((∃ x ∈ t.rows, x.userId = uid ∧ x.name = name) →
      (getOrCreateLabel t uid name).1 ∈ t.rows ∧ (getOrCreateLabel t uid name).2 = t) ∧
    ((¬ ∃ x ∈ t.rows, x.userId = uid ∧ x.name = name) →
      ((getOrCreateLabel t uid name).2).rows = t.rows ++ [⟨t.nextId, uid, name⟩]) ∧
    (matchCount t uid name = 0 →
      matchCount ((getOrCreateLabel ((getOrCreateLabel t uid name).2) uid name).2) uid name
        = 1) := by
  refine ⟨getOrCreateLabel_matches t uid name, ?_, ?_, ?_⟩
  · intro h
    have hb : ∃ x ∈ t.rows, labelMatches uid name x = true := by
      rcases h with ⟨x, hx, hux, hnx⟩
      exact ⟨x, hx, labelMatches_iff.mpr ⟨hux, hnx⟩⟩
    have ht2 := getOrCreateLabel_of_exists t uid name hb
    refine ⟨?_, ht2⟩
    have := getOrCreateLabel_mem t uid name
    rwa [ht2] at this
  · intro h
    apply getOrCreateLabel_of_not_exists
    intro x hx
    cases hb : labelMatches uid name x with
    | false => rfl
    | true => exact absurd ⟨x, hx, labelMatches_iff.mp hb⟩ h
  · intro h0
    have hnone : ∀ x ∈ t.rows, labelMatches uid name x = false := by
      intro x hx
      cases hb : labelMatches uid name x with
      | false => rfl
      | true =>
          exfalso
          apply matchCount_pos_iff.mpr ⟨x, hx, hb⟩
          exact h0
    have hrows1 := getOrCreateLabel_of_not_exists t uid name hnone
    have hcount1 :
        matchCount ((getOrCreateLabel t uid name).2) uid name = 1 := by
      unfold matchCount at h0 ⊢
      rw [hrows1, List.filter_append, List.length_append, List.length_eq_zero.mp h0]
      simp [labelMatches]
    have hfresh :
        ∃ x ∈ ((getOrCreateLabel t uid name).2).rows, labelMatches uid name x = true := by
      refine ⟨⟨t.nextId, uid, name⟩, ?_, ?_⟩
      · rw [hrows1]
        exact List.mem_append_right _ (List.mem_singleton.mpr rfl)
      · simp [labelMatches]
    rw [getOrCreateLabel_of_exists _ uid name hfresh]
    exact hcount1

/-- Witness for C3: two calls from the empty table leave exactly one
"Vegan" row for user 1, and a call on a table already holding that row
returns it without touching the table. -/
theorem claim3_get_or_create_idempotent_witness :
    matchCount ((getOrCreateLabel ((getOrCreateLabel ⟨[], 1⟩ 1 "Vegan").2) 1 "Vegan").2)
        1 "Vegan" = 1 ∧
      (getOrCreateLabel ⟨[tagA], 2⟩ 1 "Vegan").2 = ⟨[tagA], 2⟩ := by
  constructor
  · exact (claim3_get_or_create_idempotent ⟨[], 1⟩ 1 "Vegan").2.2.2 (by decide)
  · exact ((claim3_get_or_create_idempotent ⟨[tagA], 2⟩ 1 "Vegan").2.1
      ⟨tagA, List.mem_singleton.mpr rfl, rfl, rfl⟩).2

/-! ## Parsing error lemmas -/

/-- `int()` only ever raises `ValueError`, never DRF's
`ValidationError`. -/
lemma pyIntChars_error {cs : List Char} {e : PyError} (h : pyIntChars cs = .error e) :
    e = .valueError := by
  unfold pyIntChars at h
  split at h <;> split at h <;> simp_all

/-- A piece that does not raise `ValueError` parses to some integer. -/
lemma pyIntChars_ok_of_ne {cs : List Char} (h : pyIntChars cs ≠ .error .valueError) :
    ∃ n, pyIntChars cs = .ok n := by
  cases hp : pyIntChars cs with
  | ok n => exact ⟨n, rfl⟩
  | error e =>
      rw [pyIntChars_error hp] at hp
      exact absurd hp h

lemma intListLoop_ok_of_forall (l : List (List Char))
    (h : ∀ x ∈ l, pyIntChars x ≠ .error .valueError) :
    ∃ ns, intListLoop l = .ok ns ∧ ns.length = l.length := by
  induction l with
  | nil => exact ⟨[], rfl, rfl⟩
  | cons x xs ih =>
      rcases pyIntChars_ok_of_ne (h x (List.mem_cons_self x xs)) with ⟨n, hn⟩
      rcases ih (fun y hy => h y (List.mem_cons_of_mem x hy)) with ⟨ns, hns, hlen⟩
      refine ⟨n :: ns, ?_, by simp [hlen]⟩
      simp only [intListLoop, hn, hns]
      rfl

lemma intListLoop_error_of_exists (l : List (List Char))
    (h : ∃ x ∈ l, pyIntChars x = .error .valueError) :
    intListLoop l = .error .valueError := by
  induction l with
  | nil =>
      rcases h with ⟨x, hx, -⟩
      exact absurd hx (List.not_mem_nil x)
  | cons x xs ih =>
      rcases h with ⟨y, hy, hbad⟩
      rcases List.mem_cons.mp hy with rfl | hmem
      · simp only [intListLoop, hbad]
        rfl
      · cases hp : pyIntChars x with
        | ok n =>
            simp only [intListLoop, hp, ih ⟨y, hmem, hbad⟩]
            rfl
        | error e =>
            rw [pyIntChars_error hp] at hp
            simp only [intListLoop, hp]
            rfl

/-- C5 counterexample: on the filter value `"1,abc"` the parser raises
Python's `ValueError` — an exception DRF does not convert into a 400
response — and not the `ValidationError` the claim requires. -/
theorem claim5_counterexample :
    params_to_ints "1,abc" = .error .valueError ∧
      (Except.error PyError.valueError : Except PyError (List Int))
        ≠ .error .validationError := by
  exact ⟨by decide, by decide⟩

/-- C5 (amended): the filter parameter is parsed as a comma-separated
integer list and a malformed entry is not silently dropped — but it
aborts the request with an uncaught `ValueError` (a 500-class server
error), not with a `ValidationError`.  When every entry parses, the
whole list is returned, one integer per entry. -/
theorem claim5_malformed_filter_param (s : String) :
    ((∀ piece ∈ splitOnChar ',' s.data, pyIntChars piece ≠ .error .valueError) →
      ∃ ns, params_to_ints s = .ok ns ∧ ns.length = (splitOnChar ',' s.data).length) ∧
    ((∃ piece ∈ splitOnChar ',' s.data, pyIntChars piece = .error .valueError) →
      params_to_ints s = .error .valueError ∧
        params_to_ints s ≠ .error .validationError) := by
  constructor
  · intro h
    exact intListLoop_ok_of_forall _ h
  · intro h
    have he : params_to_ints s = .error .valueError := intListLoop_error_of_exists _ h
    refine ⟨he, ?_⟩
    rw [he]
    exact fun hc => PyError.noConfusion (Except.error.inj hc)

/-- Witness for the amended C5 at the concrete parameter `"1,abc"`. -/
theorem claim5_malformed_filter_param_witness :
    params_to_ints "1,abc" = .error .valueError ∧
      params_to_ints "1,abc" ≠ .error .validationError :=
  (claim5_malformed_filter_param "1,abc").2 ⟨['a', 'b', 'c'], by decide, by decide⟩

/-! ## C6: the `assigned_only` flag -/

/-- C6 counterexample: the supplied value `"2"` is neither `0` nor `1`,
yet the request succeeds (it behaves like `1`): the claim that "any
other supplied value is a client error" is false on the code. -/
theorem claim6_counterexample :
    tagListRequest dbA 1 (some "2") = .ok [tagA] ∧
      ∀ e, tagListRequest dbA 1 (some "2") ≠ .error e := by
  have h1 : tagListRequest dbA 1 (some "2") = .ok [tagA] := by decide
  refine ⟨h1, fun e hc => ?_⟩
  rw [h1] at hc
  exact Except.noConfusion hc

/-- C6 (amended): `assigned_only` absent (or `"0"`) selects all of the
requester's labels and `"1"` restricts to labels attached to at least
one recipe — but any string `int()` accepts is coerced through
`bool(int(...))`, so every non-zero integer value behaves like `1`
rather than being rejected, and a non-integer value aborts the request
with an uncaught `ValueError` (a 500-class server error), not a client
error. -/
theorem claim6_assigned_only_filter (db : DB) (uid : Nat) :
    (tagListRequest db uid none = .ok (tagGetQueryset db uid false)) ∧
    (ingredientListRequest db uid none = .ok (ingredientGetQueryset db uid false)) ∧
    (∀ l, l ∈ tagGetQueryset db uid false ↔ l ∈ db.tags ∧ l.userId = uid) ∧
    (∀ l, l ∈ tagGetQueryset db uid true ↔
      l ∈ db.tags ∧ l.userId = uid ∧ attachedTo db.recipes Recipe.tagIds l) ∧
    (∀ l, l ∈ ingredientGetQueryset db uid false ↔ l ∈ db.ingredients ∧ l.userId = uid) ∧
    (∀ l, l ∈ ingredientGetQueryset db uid true ↔
      l ∈ db.ingredients ∧ l.userId = uid ∧ attachedTo db.recipes Recipe.ingredientIds l) ∧
    (∀ s n, pyInt s = .ok n →
      tagListRequest db uid (some s) = .ok (tagGetQueryset db uid (decide (n ≠ 0))) ∧
        ingredientListRequest db uid (some s)
          = .ok (ingredientGetQueryset db uid (decide (n ≠ 0)))) ∧
    (∀ s, pyInt s = .error .valueError →
      tagListRequest db uid (some s) = .error .valueError ∧
        ingredientListRequest db uid (some s) = .error .valueError) := by
  refine ⟨rfl, rfl, ?_, ?_, ?_, ?_, ?_, ?_⟩
  · intro l
    rw [tagGetQueryset, mem_attrGetQueryset]
    simp
  · intro l
    rw [tagGetQueryset, mem_attrGetQueryset]
    simp
  · intro l
    rw [ingredientGetQueryset, mem_attrGetQueryset]
    simp
  · intro l
    rw [ingredientGetQueryset, mem_attrGetQueryset]
    simp
  · intro s n h
    constructor
    · simp only [tagListRequest, assignedOnlyOfParam, h]
      rfl
    · simp only [ingredientListRequest, assignedOnlyOfParam, h]
      rfl
  · intro s h
    constructor
    · simp only [tagListRequest, assignedOnlyOfParam, h]
      rfl
    · simp only [ingredientListRequest, assignedOnlyOfParam, h]
      rfl

/-- Witness for the amended C6: the value `"1"` turns the
assigned-only restriction on; `"oops"` aborts with `ValueError`. -/
theorem claim6_assigned_only_filter_witness :
    tagListRequest dbA 1 (some "1") = .ok (tagGetQueryset dbA 1 (decide ((1 : Int) ≠ 0))) ∧
      tagListRequest dbA 1 (some "oops") = .error .valueError := by
  constructor
  · exact ((claim6_assigned_only_filter dbA 1).2.2.2.2.2.2.1 "1" 1 (by decide)).1
  · exact ((claim6_assigned_only_filter dbA 1).2.2.2.2.2.2.2 "oops" (by decide)).1

/-! ## C7 / C8: user serialization and registration -/

/-- The stored hash is never the raw password itself. -/
lemma makePassword_ne (p : String) : makePassword p ≠ p := by
  intro hc
  have h := congrArg String.length hc
  rw [makePassword, String.length_append] at h
  have h14 : ("pbkdf2_sha256$" : String).length = 14 := by decide
  omega

/-- Serializing a user emits exactly the email and name columns. -/
lemma userToRepresentation_eq (u : User) :
    userToRepresentation u = [("email", u.email), ("name", u.name)] := rfl

lemma password_not_in_representation (u : User) :
    ∀ kv ∈ userToRepresentation u, kv.1 ≠ "password" := by
  intro kv hkv
  rw [userToRepresentation_eq] at hkv
  rcases List.mem_cons.mp hkv with rfl | hkv2
  · intro hc
    have hcc : ("email" : String) = "password" := hc
    exact absurd hcc (by decide)
  · rcases List.mem_cons.mp hkv2 with rfl | hkv3
    · intro hc
      have hcc : ("name" : String) = "password" := hc
      exact absurd hcc (by decide)
    · exact absurd hkv3 (List.not_mem_nil kv)

/-- C7: the password is write-only.  Every serialized user response —
the single representation function backing registration, profile
retrieve and profile update responses — carries no `password` key for
any user; and the user row a successful registration stores holds only
the password's hash, never the raw password. -/
theorem claim7_password_never_serialized (u : User) (db : DB) (email password name : String) :
    (∀ kv ∈ userToRepresentation u, kv.1 ≠ "password") ∧
    (∀ u2 db2, registerUser db email password name = (.ok u2, db2) →
      u2.passwordHash = makePassword password ∧ u2.passwordHash ≠ password ∧
        ∀ kv ∈ userToRepresentation u2, kv.1 ≠ "password") := by
  refine ⟨password_not_in_representation u, ?_⟩
  intro u2 db2 h
  rw [registerUser] at h
  by_cases hv : userCreateValid db email password = true
  · rw [if_pos hv] at h
    have hu2 : (create_user db email password name).2 = u2 :=
      Except.ok.inj (congrArg Prod.fst h)
    have hhash : u2.passwordHash = makePassword password := by
      rw [← hu2]
      rfl
    exact ⟨hhash, hhash ▸ makePassword_ne password, password_not_in_representation u2⟩
  · rw [if_neg hv] at h
    exact absurd (congrArg Prod.fst h) (fun hc => Except.noConfusion hc)

/-- Witness for C7: a concrete successful registration stores the hash
and serializes without a `password` key. -/
theorem claim7_password_never_serialized_witness :
    ((create_user dbEmpty "user@example.com" "abcde" "Alice").2).passwordHash
        = makePassword "abcde" ∧
      ∀ kv ∈ userToRepresentation ((create_user dbEmpty "user@example.com" "abcde" "Alice").2),
        kv.1 ≠ "password" := by
  have h := (claim7_password_never_serialized
      ((create_user dbEmpty "user@example.com" "abcde" "Alice").2) dbEmpty
      "user@example.com" "abcde" "Alice").2
      ((create_user dbEmpty "user@example.com" "abcde" "Alice").2)
      ((create_user dbEmpty "user@example.com" "abcde" "Alice").1) rfl
  exact ⟨h.1, h.2.2⟩

/-- Failing the combined field validation is exactly one of: malformed
email, duplicate email, password shorter than 5. -/
lemma userCreateValid_false_iff {db : DB} {email password : String} :
    userCreateValid db email password = false ↔
      (isValidEmail email = false ∨ emailTaken db email = true ∨ password.length < 5) := by
  unfold userCreateValid
  cases hv : isValidEmail email <;> cases ht : emailTaken db email <;>
    by_cases hl : password.length ≥ 5 <;> simp [hv, ht, hl] <;> omega

/-- C8: registration validation fails with `ValidationError` exactly
when the email is malformed or duplicate or the password is shorter
than 5 characters; a failed registration stores nothing; the
4-character password `"abcd"` is rejected and the 5-character
`"abcde"` is accepted. -/
theorem claim8_registration_validation (db : DB) (email password name : String) :
    ((registerUser db email password name).1 = .error .validationError ↔
      (isValidEmail email = false ∨ emailTaken db email = true ∨ password.length < 5)) ∧
    ((registerUser db email password name).1 = .error .validationError →
      (registerUser db email password name).2 = db) ∧
    ((registerUser dbEmpty "user@example.com" "abcd" "Alice").1 = .error .validationError) ∧
    ((registerUser dbEmpty "user@example.com" "abcde" "Alice").1
        = .ok ((create_user dbEmpty "user@example.com" "abcde" "Alice").2)) := by
  refine ⟨?_, ?_, by decide, rfl⟩
  · cases hv : userCreateValid db email password with
    | true =>
        constructor
        · intro hc
          rw [registerUser, if_pos hv] at hc
          exact absurd hc (fun hcc => Except.noConfusion hcc)
        · intro hdisj
          have : userCreateValid db email password = false :=
            userCreateValid_false_iff.mpr hdisj
          rw [hv] at this
          exact absurd this (by decide)
    | false =>
        constructor
        · intro _
          exact userCreateValid_false_iff.mp hv
        · intro _
          rw [registerUser, if_neg (by rw [hv]; exact fun hc => Bool.noConfusion hc)]
  · intro h
    cases hv : userCreateValid db email password with
    | true =>
        rw [registerUser, if_pos hv] at h
        exact absurd h (fun hcc => Except.noConfusion hcc)
    | false =>
        rw [registerUser, if_neg (by rw [hv]; exact fun hc => Bool.noConfusion hc)]

/-- Witness for C8: on the empty database, a malformed email is
rejected and the database is left unchanged. -/
theorem claim8_registration_validation_witness :
    (registerUser dbEmpty "not-an-email" "abcde" "Alice").1 = .error .validationError ∧
      (registerUser dbEmpty "not-an-email" "abcde" "Alice").2 = dbEmpty := by
  have h := claim8_registration_validation dbEmpty "not-an-email" "abcde" "Alice"
  have he : (registerUser dbEmpty "not-an-email" "abcde" "Alice").1
      = .error .validationError := (h.1).mpr (Or.inl (by decide))
  exact ⟨he, h.2.1 he⟩

/-! ## C9 / C10 -/

/-- An owned recipe is found by the detail lookup. -/
lemma recipeGetObject_owned {db : DB} {uid : Nat} {r : Recipe}
    (hr : r ∈ db.recipes) (hu : r.userId = uid) :
    ∃ x, recipeGetObject db uid r.id = some x := by
  unfold recipeGetObject
  cases hfind : (recipeGetQueryset db uid none none).find? (fun x => x.id == r.id) with
  | some x => exact ⟨x, rfl⟩
  | none =>
      exfalso
      have hmem : r ∈ recipeGetQueryset db uid none none :=
        mem_recipeGetQueryset.mpr ⟨hr, hu, trivial, trivial⟩
      have := List.find?_eq_none.mp hfind r hmem
      exact this (beq_self_eq_true r.id)

/-- C9: uploading an image to an owned recipe validates the payload: a
missing or invalid image is answered with 400 and leaves the database
unchanged, while a valid image is answered with 200 and the stored
recipe's image reference is replaced by the uploaded one. -/
theorem claim9_upload_image_validation (db : DB) (uid : Nat) (r : Recipe)
    (hr : r ∈ db.recipes) (hu : r.userId = uid) :
    (∀ body, imageSerializerValid body = false → uploadImage db uid r.id body = (400, db)) ∧
    (∀ ref,
      (uploadImage db uid r.id (.image ref)).1 = 200 ∧
      ∃ r2 ∈ ((uploadImage db uid r.id (.image ref)).2).recipes,
        r2.id = r.id ∧ r2.image = some ref) := by
  rcases recipeGetObject_owned hr hu with ⟨x, hx⟩
  constructor
  · intro body hb
    unfold uploadImage
    rw [hx]
    cases body with
    | missing => rfl
    | malformed => rfl
    | image ref => exact absurd hb (by simp [imageSerializerValid])
  · intro ref
    unfold uploadImage
    rw [hx]
    refine ⟨rfl, ⟨{ r with image := some ref }, ?_, rfl, rfl⟩⟩
    simp only
    apply List.mem_map.mpr
    refine ⟨r, hr, ?_⟩
    rw [if_pos (beq_self_eq_true r.id)]

/-- Witness for C9 at a concrete state: a missing payload gives 400
and no change; a valid image gives 200 and the stored reference. -/
theorem claim9_upload_image_validation_witness :
    uploadImage dbA 1 1 .missing = (400, dbA) ∧
      (uploadImage dbA 1 1 (.image "stew.jpg")).1 = 200 ∧
      ∃ r2 ∈ ((uploadImage dbA 1 1 (.image "stew.jpg")).2).recipes,
        r2.id = 1 ∧ r2.image = some "stew.jpg" := by
  have h := claim9_upload_image_validation dbA 1 recipeA (List.mem_singleton.mpr rfl) rfl
  exact ⟨h.1 .missing rfl, (h.2 "stew.jpg").1, (h.2 "stew.jpg").2⟩

/-- C10: on profile update the password is popped from the payload
before the remaining fields are assigned.  With the password absent or
supplied as the empty string the stored hash is unchanged while the
other supplied fields are still applied; a non-empty supplied password
re-hashes and replaces the stored hash. -/
theorem claim10_profile_update_password (u : User) (vd : UserUpdateData) :
    (userSerializerUpdate u { vd with password := none }
        = { u with email := vd.email.getD u.email, name := vd.name.getD u.name }) ∧
    (userSerializerUpdate u { vd with password := some "" }
        = { u with email := vd.email.getD u.email, name := vd.name.getD u.name }) ∧
    (∀ p, p ≠ "" → userSerializerUpdate u { vd with password := some p }
        = { u with
            email := vd.email.getD u.email
            name := vd.name.getD u.name
            passwordHash := makePassword p }) := by
  refine ⟨?_, ?_, ?_⟩
  · simp [userSerializerUpdate]
  · simp [userSerializerUpdate]
  · intro p hp
    simp [userSerializerUpdate, hp]

/-- A concrete stored user for the C10 witness. -/
def userA : User := ⟨1, "user@example.com", makePassword "abcde", "Alice"⟩

/-- A concrete profile-update payload (name change only). -/
def vdB : UserUpdateData := ⟨none, some "Bob", none⟩

/-- Witness for C10: updating the name with an empty-string password
keeps the old hash and applies the name; a non-empty password replaces
the hash. -/
theorem claim10_profile_update_password_witness :
    userSerializerUpdate userA { vdB with password := some "" }
        = { userA with
            email := vdB.email.getD userA.email
            name := vdB.name.getD userA.name } ∧
    userSerializerUpdate userA { vdB with password := some "newpass" }
        = { userA with
            email := vdB.email.getD userA.email
            name := vdB.name.getD userA.name
            passwordHash := makePassword "newpass" } := by
  have h := claim10_profile_update_password userA vdB
  exact ⟨h.2.1, h.2.2 "newpass" (by decide)⟩
